import Mathlib

/-!
Verification of the DiaGuru in-memory interval scheduler
(`src/diaguru/scheduler.py`) against its natural-language specification.

The scheduler state is the ordered sequence `self._tasks : List[Task]`.
Timestamps (`datetime` values, compared only with `<`, `<=`, `>`) are
embedded as integers.  Each method of the Python class `Scheduler` is
embedded as an explicit state-passing function: a method that can raise
returns the raised error together with the state at the moment of the
raise (for `add_task` both raises happen before the append, so the state
component on an error is the unchanged input state, exactly as in the
source).
-/

namespace DiaGuru

/-- A scheduled task, as in the `@dataclass Task` of the source:
a name and two timestamps. -/
structure Task where
  name : String
  start : Int
  «end» : Int
deriving DecidableEq, Repr

/-- The two validation failures `Scheduler.add_task` can raise:
`raise ValueError("End time must be after start time")` and
`raise ValueError("Task conflicts with existing schedule")`. -/
inductive ValidationError where
  | nonPositiveDuration
  | conflict
deriving DecidableEq, Repr

/-- `Scheduler.has_conflict(start, end)`: the loop
`for task in self._tasks: if start < task.end and end > task.start: return True`
followed by `return False`, i.e. an existential scan over the stored tasks. -/
def has_conflict (tasks : List Task) (start «end» : Int) : Bool :=
  tasks.any fun task => decide (start < task.«end») && decide («end» > task.start)

/-- The call `self.has_conflict(start, end)` on a scheduler whose state is
`tasks`: the returned boolean together with the state after the call
(the method only reads `self._tasks`). -/
def has_conflict_call (tasks : List Task) (start «end» : Int) : Bool × List Task :=
  (has_conflict tasks start «end», tasks)

/-- `Scheduler.add_task(name, start, end)`: raises `nonPositiveDuration`
when `end <= start`, else raises `conflict` when `self.has_conflict(start, end)`,
else appends `Task(name, start, end)`.  The second component is the scheduler
state after the call; both raises occur before the append, so on an error it
is the input state. -/
def add_task (tasks : List Task) (name : String) (start «end» : Int) :
    Except ValidationError Unit × List Task :=
  if «end» ≤ start then (Except.error ValidationError.nonPositiveDuration, tasks)
  else if has_conflict tasks start «end» then (Except.error ValidationError.conflict, tasks)
  else (Except.ok (), tasks ++ [⟨name, start, «end»⟩])

/-- `Scheduler.list_tasks()`: `return list(self._tasks)` — a fresh copy of the
internal sequence (first component), leaving the state (second component)
untouched. -/
def list_tasks (tasks : List Task) : List Task × List Task :=
  (tasks, tasks)

/-- `Scheduler.remove_task(name)`:
`self._tasks = [t for t in self._tasks if t.name != name]`. -/
def remove_task (tasks : List Task) (name : String) : List Task :=
  tasks.filter fun t => t.name != name

/-- Modelled from the spec: the removal operation as §4.1 words it —
walk the sequence and delete every task whose name equals the given name,
keeping the remaining tasks in their relative order.  Used to compare
`remove_task` against the spec's description. -/
def remove_spec (name : String) : List Task → List Task
  | [] => []
  | t :: rest => if t.name = name then remove_spec name rest else t :: remove_spec name rest

/-- The half-open overlap predicate of §4: `[s1,e1)` and `[s2,e2)` overlap
iff `s1 < e2` and `s2 < e1`. -/
def overlaps (t1 t2 : Task) : Prop :=
  t1.start < t2.«end» ∧ t2.start < t1.«end»

instance (t1 t2 : Task) : Decidable (overlaps t1 t2) :=
  inferInstanceAs (Decidable (_ ∧ _))

/-- The §3 invariant: no two tasks of the sequence overlap. -/
def NoOverlap (tasks : List Task) : Prop :=
  tasks.Pairwise fun a b => ¬ overlaps a b

/-- Scheduler states reachable from the empty registry by the public
operations (`add_task` with either outcome, `remove_task`,
`has_conflict`, `list_tasks`). -/
inductive Reachable : List Task → Prop where
  | empty : Reachable []
  | add_step (ts : List Task) (name : String) (s e : Int) :
      Reachable ts → Reachable (add_task ts name s e).2
  | remove_step (ts : List Task) (name : String) :
      Reachable ts → Reachable (remove_task ts name)
  | conflict_step (ts : List Task) (s e : Int) :
      Reachable ts → Reachable (has_conflict_call ts s e).2
  | list_step (ts : List Task) :
      Reachable ts → Reachable (list_tasks ts).2

/-- `has_conflict` returns true exactly when some stored task satisfies the
scan's condition. -/
theorem has_conflict_eq_true_iff (tasks : List Task) (s e : Int) :
    has_conflict tasks s e = true ↔ ∃ t ∈ tasks, s < t.«end» ∧ t.start < e := by
  simp [has_conflict, List.any_eq_true]

/-- A successful `add_task` preserves the no-overlap invariant; a failed one
returns the state unchanged. -/
theorem noOverlap_add (ts : List Task) (n : String) (s e : Int) (h : NoOverlap ts) :
    NoOverlap (add_task ts n s e).2 := by
  unfold add_task
  split_ifs with h1 h2
  · exact h
  · exact h
  · refine List.pairwise_append.mpr ⟨h, by simp [NoOverlap], ?_⟩
    intro a ha b hb
    simp only [List.mem_singleton] at hb
    subst hb
    intro hov
    exact h2 ((has_conflict_eq_true_iff ts s e).mpr ⟨a, ha, hov.2, hov.1⟩)

/-- `remove_task` preserves the no-overlap invariant. -/
theorem noOverlap_remove (ts : List Task) (n : String) (h : NoOverlap ts) :
    NoOverlap (remove_task ts n) :=
  List.Pairwise.sublist (List.filter_sublist ts) h

/-- C1: every registry state reachable from the empty registry by add,
remove and hasConflict operations satisfies the invariant that no two
stored tasks have overlapping half-open intervals. -/
theorem reachable_no_overlap (ts : List Task) (h : Reachable ts) : NoOverlap ts := by
  induction h with
  | empty => exact List.Pairwise.nil
  | add_step ts n s e _ ih => exact noOverlap_add ts n s e ih
  | remove_step ts n _ ih => exact noOverlap_remove ts n ih
  | conflict_step ts s e _ ih => exact ih
  | list_step ts _ ih => exact ih

/-- Witness for C1: the state reached by two successful adds from the empty
registry satisfies the invariant. -/
theorem reachable_no_overlap_witness :
    NoOverlap (add_task (add_task [] "A" 0 10).2 "B" 10 20).2 :=
  reachable_no_overlap _
    (Reachable.add_step _ "B" 10 20 (Reachable.add_step _ "A" 0 10 Reachable.empty))

/-- C2: for a candidate with positive duration, `add_task` fails with the
conflict error exactly when some stored task overlaps the candidate under
the half-open predicate, and the conflict error is distinct from the
non-positive-duration error. -/
theorem add_conflict_iff (ts : List Task) (n : String) (s e : Int) (h : s < e) :
    ((add_task ts n s e).1 = Except.error ValidationError.conflict ↔
      ∃ t ∈ ts, s < t.«end» ∧ t.start < e) ∧
    ValidationError.conflict ≠ ValidationError.nonPositiveDuration := by
  refine ⟨?_, by decide⟩
  unfold add_task
  rw [if_neg (not_le.mpr h)]
  by_cases hc : has_conflict ts s e
  · rw [if_pos hc]
    simpa using (has_conflict_eq_true_iff ts s e).mp hc
  · rw [if_neg hc]
    simp only [Bool.not_eq_true] at hc
    constructor
    · intro habs
      exact absurd habs (by simp)
    · intro hex
      exact absurd ((has_conflict_eq_true_iff ts s e).mpr hex) (by simp [hc])

/-- Witness for C2, at the spec's touching-interval example `[540,600)` then
`[600,660)`: the conflict characterisation holds there, and the touching
add in fact succeeds. -/
theorem add_conflict_iff_witness :
    (((add_task [⟨"A", 540, 600⟩] "B" 600 660).1 = Except.error ValidationError.conflict ↔
      ∃ t ∈ [(⟨"A", 540, 600⟩ : Task)], (600 : Int) < t.«end» ∧ t.start < 660) ∧
      ValidationError.conflict ≠ ValidationError.nonPositiveDuration) ∧
    (add_task [⟨"A", 540, 600⟩] "B" 600 660).1 = Except.ok () :=
  ⟨add_conflict_iff [⟨"A", 540, 600⟩] "B" 600 660 (by decide), rfl⟩

/-- C3: a `has_conflict` call returns true exactly when some stored task
overlaps the queried interval (`start < task.end` and `end > task.start`),
and it leaves the scheduler state unchanged. -/
theorem has_conflict_call_spec (ts : List Task) (s e : Int) :
    ((has_conflict_call ts s e).1 = true ↔ ∃ t ∈ ts, s < t.«end» ∧ e > t.start) ∧
    (has_conflict_call ts s e).2 = ts :=
  ⟨has_conflict_eq_true_iff ts s e, rfl⟩

/-- C4: whenever `end ≤ start`, `add_task` fails with the
non-positive-duration error, whatever the current registry holds (in
particular even when the candidate would also conflict). -/
theorem add_nonpositive (ts : List Task) (n : String) (s e : Int) (h : e ≤ s) :
    (add_task ts n s e).1 = Except.error ValidationError.nonPositiveDuration := by
  unfold add_task
  rw [if_pos h]

/-- Witness for C4: an empty interval inside a stored task fails with the
duration error even though the conflict scan would also fire there. -/
theorem add_nonpositive_witness :
    (add_task [⟨"A", 0, 10⟩] "B" 5 5).1 = Except.error ValidationError.nonPositiveDuration ∧
    has_conflict [⟨"A", 0, 10⟩] 5 5 = true :=
  ⟨add_nonpositive [⟨"A", 0, 10⟩] "B" 5 5 (by decide), rfl⟩

/-- C5: a failed `add_task` (either error) leaves the scheduler state
exactly as it was before the call. -/
theorem add_fail_no_mutation (ts : List Task) (n : String) (s e : Int)
    (err : ValidationError) (h : (add_task ts n s e).1 = Except.error err) :
    (add_task ts n s e).2 = ts := by
  unfold add_task at h ⊢
  split_ifs at h ⊢ <;> simp_all

/-- Witness for C5: a conflicting add on a one-task registry leaves the
registry holding exactly that one task. -/
theorem add_fail_no_mutation_witness :
    (add_task [⟨"A", 0, 10⟩] "B" 5 7).2 = [⟨"A", 0, 10⟩] :=
  add_fail_no_mutation [⟨"A", 0, 10⟩] "B" 5 7 ValidationError.conflict rfl

/-- C6: a successful `add_task` appends the new task at the end of the
sequence, and adding any positive-duration task to the empty registry
succeeds with `list_tasks` returning exactly that one task. -/
theorem add_success_appends (ts : List Task) (n : String) (s e : Int) :
    ((add_task ts n s e).1 = Except.ok () → (add_task ts n s e).2 = ts ++ [⟨n, s, e⟩]) ∧
    (s < e → (add_task [] n s e).1 = Except.ok () ∧
      (list_tasks (add_task [] n s e).2).1 = [⟨n, s, e⟩]) := by
  constructor
  · intro h
    unfold add_task at h ⊢
    split_ifs at h ⊢
    all_goals simp_all
  · intro h
    unfold add_task
    rw [if_neg (not_le.mpr h)]
    simp [has_conflict, list_tasks]

/-- Witness for C6: a successful add onto a one-task registry appends at the
end, and adding to the empty registry lists exactly the added task. -/
theorem add_success_appends_witness :
    (add_task [⟨"A", 0, 1⟩] "B" 5 7).2 = [⟨"A", 0, 1⟩] ++ [⟨"B", 5, 7⟩] ∧
    ((add_task [] "A" 0 1).1 = Except.ok () ∧
      (list_tasks (add_task [] "A" 0 1).2).1 = [⟨"A", 0, 1⟩]) :=
  ⟨(add_success_appends [⟨"A", 0, 1⟩] "B" 5 7).1 rfl,
    (add_success_appends [] "A" 0 1).2 (by decide)⟩

/-- C7: `remove_task` always succeeds; it computes exactly the spec's
removal (delete every task with the given name, keeping relative order),
its result is a sublist of the input (order preserved), every surviving
task has a different name, and every task with a different name survives. -/
theorem remove_task_correct (ts : List Task) (name : String) :
    remove_task ts name = remove_spec name ts ∧
    (remove_task ts name).Sublist ts ∧
    (∀ t ∈ remove_task ts name, t.name ≠ name) ∧
    (∀ t ∈ ts, t.name ≠ name → t ∈ remove_task ts name) := by
  refine ⟨?_, List.filter_sublist ts, ?_, ?_⟩
  · induction ts with
    | nil => rfl
    | cons t rest ih =>
      by_cases h : t.name = name
      · simp only [remove_task, List.filter_cons, remove_spec, h, bne_self_eq_false,
          Bool.false_eq_true, if_false, if_true]
        simpa [remove_task] using ih
      · simp only [remove_task, List.filter_cons, remove_spec, h, if_false]
        rw [if_pos (by simpa using h)]
        simpa [remove_task] using ih
  · intro t ht
    simpa using (List.mem_filter.mp ht).2
  · intro t ht hne
    exact List.mem_filter.mpr ⟨ht, by simpa using hne⟩

/-- Witness for C7, at the spec's example: adding A, B, C and removing B
yields `[A, C]`, a sublist of the original in the original order. -/
theorem remove_task_correct_witness :
    (remove_task [⟨"A", 0, 1⟩, ⟨"B", 1, 2⟩, ⟨"C", 2, 3⟩] "B").Sublist
      [⟨"A", 0, 1⟩, ⟨"B", 1, 2⟩, ⟨"C", 2, 3⟩] ∧
    remove_task [⟨"A", 0, 1⟩, ⟨"B", 1, 2⟩, ⟨"C", 2, 3⟩] "B" = [⟨"A", 0, 1⟩, ⟨"C", 2, 3⟩] :=
  ⟨(remove_task_correct [⟨"A", 0, 1⟩, ⟨"B", 1, 2⟩, ⟨"C", 2, 3⟩] "B").2.1, rfl⟩

/-- C8: a `list_tasks` call returns the current sequence in order, leaves
the scheduler state unchanged, and the snapshot is independent of the
registry: however the caller transforms the returned sequence, the
scheduler state component of the call is still the original sequence. -/
theorem list_tasks_snapshot (ts : List Task) :
    (list_tasks ts).1 = ts ∧ (list_tasks ts).2 = ts ∧
    ∀ g : List Task → List Task, (g (list_tasks ts).1, (list_tasks ts).2).2 = ts :=
  ⟨rfl, rfl, fun _ => rfl⟩

/-- C9: removal is idempotent: removing the same name twice equals removing
it once. -/
theorem remove_task_idempotent (ts : List Task) (name : String) :
    remove_task (remove_task ts name) name = remove_task ts name := by
  simp [remove_task, List.filter_filter]

/-- C10: `has_conflict` on a degenerate query interval with `start = end`
returns true exactly when that instant lies strictly inside some stored
task's interval; in particular it is not always false on empty intervals. -/
theorem has_conflict_degenerate :
    (∀ (ts : List Task) (s : Int), has_conflict ts s s = true ↔
      ∃ t ∈ ts, t.start < s ∧ s < t.«end») ∧
    has_conflict [⟨"A", 0, 10⟩] 5 5 = true := by
  constructor
  · intro ts s
    rw [has_conflict_eq_true_iff]
    constructor
    · rintro ⟨t, ht, h1, h2⟩
      exact ⟨t, ht, h2, h1⟩
    · rintro ⟨t, ht, h1, h2⟩
      exact ⟨t, ht, h2, h1⟩
  · rfl

end DiaGuru
